import Mathlib

/-!
Verification of the profile and configuration layer of the repository
mongodb/atlas-cli-core (files config/config.go and the profile source file).

The viper settings store is modelled as a settings document: an association
list from top-level keys to values, where a value is a string, a boolean, a
nested table (one per profile), or the Go nil value.  Pure functions of the
Go code are translated to Lean functions over this document; the external
jwt claim parser and the HTTP base round-tripper are passed as function
arguments.
-/

set_option maxHeartbeats 1000000

/-- A value held by the settings store: Go `any` as used by viper and
go-toml — a string, a boolean, a nested table (profile section), or nil. -/
inductive Value where
  | str (s : String)
  | boolV (b : Bool)
  | table (t : List (String × Value))
  | nilV

/-- The settings document: top-level keys (global settings and one nested
table per profile name) with their values. -/
abbrev Doc := List (String × Value)

/-- Lookup of a key in an association list (Go map indexing, and go-toml
`Tree.Get` restricted to a single-segment key): the first binding, `none`
when the key is absent. -/
def lookupKey {α : Type} : List (String × α) → String → Option α
  | [], _ => none
  | (k', v) :: rest, k => if k' = k then some v else lookupKey rest k

/-- Association-list update (go-toml `Tree.Set` for a single-segment key,
and Go map assignment): replace the first binding in place, or append. -/
def setKey {α : Type} : List (String × α) → String → α → List (String × α)
  | [], k, v => [(k, v)]
  | (k', v') :: rest, k, v =>
      if k' = k then (k, v) :: rest else (k', v') :: setKey rest k v

/-- The go-toml `Tree.Delete` operation for a single-segment key: remove the
binding, `none` (an error in Go) when the key is absent. -/
def deleteKey {α : Type} : List (String × α) → String → Option (List (String × α))
  | [], _ => none
  | (k', v') :: rest, k =>
      if k' = k then some rest
      else
        match deleteKey rest k with
        | some d => some ((k', v') :: d)
        | none => none

/-- Viper `GetStringMap(name)`: the nested table stored under `name`, or the
empty map when the key is absent or its value is not a table. -/
def getStringMap (doc : Doc) (name : String) : Doc :=
  match lookupKey doc name with
  | some (.table t) => t
  | _ => []

/-- Go `strings.ToLower`: lowercase every character (structural version of
`String.toLower`, mapping `Char.toLower` over the characters). -/
def lowerString (s : String) : String := ⟨s.data.map Char.toLower⟩

/-- Go `config.IsTrue`: the lowercased string is one of the truthy literals
`"t"`, `"true"`, `"y"`, `"yes"`, `"1"` (the cases of the Go switch). -/
def IsTrue (s : String) : Bool :=
  ["t", "true", "y", "yes", "1"].contains (lowerString s)

/-- Go `Profile.Get`: the global (top-level) value when the key is set and
its value is not the empty string (`viper.IsSet(name) && viper.Get(name)
!= ""`); otherwise the value in the nested table of the profile (Go map
lookup, nil i.e. `none` when absent). -/
def ProfileGet (doc : Doc) (profileName key : String) : Option Value :=
  match lookupKey doc key with
  | some (.str "") => lookupKey (getStringMap doc profileName) key
  | some v => some v
  | none => lookupKey (getStringMap doc profileName) key

/-- Go `Profile.GetBoolWithDefault`: type switch on the resolved value —
a boolean is returned as is, a string goes through `IsTrue`, anything else
(including an unset key) yields the caller-supplied default. -/
def GetBoolWithDefault (doc : Doc) (profileName key : String)
    (defaultValue : Bool) : Bool :=
  match ProfileGet doc profileName key with
  | some (.boolV b) => b
  | some (.str s) => IsTrue s
  | _ => defaultValue

/-- Go `Profile.GetBool`: `GetBoolWithDefault` with default `false`. -/
def GetBool (doc : Doc) (profileName key : String) : Bool :=
  GetBoolWithDefault doc profileName key false

/-- Errors of the profile lifecycle: the dotted-name error
`ErrProfileNameHasDots`, and the error go-toml `Tree.Delete` returns when
the key to delete is absent. -/
inductive ConfigError where
  | profileNameHasDots (name : String)
  | deleteFailed (name : String)

/-- Go `validateName`: reject any name containing `"."` (the Go code uses
`strings.Contains`; the needle is the single character dot). -/
def validateName (name : String) : Option ConfigError :=
  if name.data.contains '.' then some (.profileNameHasDots name) else none

/-- Go `Profile.SetName`: validate, then store the lowercased name; the
returned string is the new value of the name field of the profile. -/
def SetName (name : String) : Except ConfigError String :=
  match validateName name with
  | some e => .error e
  | none => .ok (lowerString name)

/-- The go-toml `Tree.Get` operation as used by `Rename`: the stored value,
or Go nil when the key is absent. -/
def tomlGet (doc : Doc) (key : String) : Value :=
  match lookupKey doc key with
  | some v => v
  | none => Value.nilV

/-- Go `Profile.Rename`: validate the new name, set the new key to the value
found at the old key, then delete the old key; the result is the document
written back to disk. -/
def ProfileRename (doc : Doc) (oldName newName : String) :
    Except ConfigError Doc :=
  match validateName newName with
  | some e => .error e
  | none =>
    let t1 := setKey doc newName (tomlGet doc oldName)
    match deleteKey t1 oldName with
    | some t2 => .ok t2
    | none => .error (.deleteFailed oldName)

/-- Go `Profile.Delete`: delete the key of the calling profile from the full
settings document; the result is the document written back (`none` when the
go-toml delete fails because the key is absent). -/
def ProfileDelete (doc : Doc) (profileName : String) : Option Doc :=
  deleteKey doc profileName

def projectID : String := "project_id"
def orgID : String := "org_id"
def service : String := "service"
def publicAPIKey : String := "public_api_key"
def privateAPIKey : String := "private_api_key"
def output : String := "output"
def OpsManagerURLField : String := "ops_manager_url"
def baseURL : String := "base_url"
def mongoShellPath : String := "mongosh_path"
def skipUpdateCheck : String := "skip_update_check"
def TelemetryEnabledProperty : String := "telemetry_enabled"
def AccessTokenField : String := "access_token"
def RefreshTokenField : String := "refresh_token"

/-- Go `config.Properties`: the reserved (non-profile) top-level keys. -/
def Properties : List String :=
  [projectID, orgID, service, publicAPIKey, privateAPIKey, output,
   OpsManagerURLField, baseURL, mongoShellPath, skipUpdateCheck,
   TelemetryEnabledProperty, AccessTokenField, RefreshTokenField]

/-- Go `config.List`: the top-level keys of the document that are not
reserved property names, sorted ascending with `sort.Strings`. -/
def ListProfiles (doc : Doc) : List String :=
  List.insertionSort (· ≤ ·)
    ((doc.map Prod.fst).filter (fun k => !Properties.contains k))

/-- The credential fields of a profile as returned by the string getters
`PublicAPIKey`, `PrivateAPIKey`, `AccessToken`, `RefreshToken` (each reads
its key through `GetString`, which yields `""` when the key is unset). -/
structure ProfileState where
  publicAPIKeyV : String
  privateAPIKeyV : String
  accessTokenV : String
  refreshTokenV : String

/-- Go `AuthMechanism`: `APIKeys`, `OAuth`, `NotLoggedIn`. -/
inductive AuthMechanism where
  | APIKeys
  | OAuth
  | NotLoggedIn
deriving DecidableEq

/-- Go `Profile.AuthType`: API keys if both are non-empty, else OAuth if the
access token is non-empty, else not logged in. -/
def AuthType (p : ProfileState) : AuthMechanism :=
  if p.publicAPIKeyV ≠ "" ∧ p.privateAPIKeyV ≠ "" then .APIKeys
  else if p.accessTokenV ≠ "" then .OAuth
  else .NotLoggedIn

/-- The jwt `RegisteredClaims` fields read by `Token`: the subject and the
optional expiry (a nil `ExpiresAt` is `none`, the date a natural). -/
structure RegisteredClaims where
  subject : String
  expiresAt : Option Nat

/-- The `auth.Token` value as built by `Profile.Token` (`Expiry` is the zero
time when the claims carry no expiry). -/
structure AuthToken where
  accessToken : String
  refreshToken : String
  tokenType : String
  expiry : Nat

/-- Go `Profile.Token`: nil token and no error when the access token or the
refresh token is empty; otherwise parse the claims of the access token —
`tokenClaims` stands for the external `jwt.Parser.ParseUnverified` call —
propagating any parse error, and build a token with type `"Bearer"`. -/
def ProfileToken (tokenClaims : String → Except String RegisteredClaims)
    (p : ProfileState) : Except String (Option AuthToken) :=
  if p.accessTokenV = "" ∨ p.refreshTokenV = "" then .ok none
  else
    match tokenClaims p.accessTokenV with
    | .error e => .error e
    | .ok c =>
        .ok (some { accessToken := p.accessTokenV
                    refreshToken := p.refreshTokenV
                    tokenType := "Bearer"
                    expiry := match c.expiresAt with
                      | some t => t
                      | none => 0 })

/-- An HTTP round-tripper as composed by `HttpTransport`: the base transport
supplied by the caller, possibly wrapped in the digest decorator
(`digest.Transport`) or in the bearer `Transport`. -/
inductive RoundTripper where
  | base
  | digest (username password : String) (inner : RoundTripper)
  | bearer (token : String) (inner : RoundTripper)
deriving DecidableEq

/-- Go `Profile.HttpTransport`: the digest decorator when both API keys are
non-empty, else the bearer decorator when the access token is non-empty,
else the base transport unmodified. -/
def HttpTransport (p : ProfileState) (httpTransport : RoundTripper) :
    RoundTripper :=
  if p.publicAPIKeyV ≠ "" ∧ p.privateAPIKeyV ≠ "" then
    .digest p.publicAPIKeyV p.privateAPIKeyV httpTransport
  else if p.accessTokenV ≠ "" then
    .bearer p.accessTokenV httpTransport
  else httpTransport

/-- An HTTP request: its headers. -/
structure Request where
  headers : List (String × String)

/-- Go `http.Header.Set`: set the header to the single given value,
replacing any existing value. -/
def headerSet (req : Request) (key value : String) : Request :=
  ⟨setKey req.headers key value⟩

/-- Go `Transport.RoundTrip`: set the header `Authorization` to
`Bearer <token>` on the request, then delegate to the base round-tripper
(passed as a function into an abstract response type `ρ`). -/
def TransportRoundTrip {ρ : Type} (base : Request → ρ) (token : String)
    (req : Request) : ρ :=
  base (headerSet req "Authorization" ("Bearer " ++ token))

def NativeHostName : String := "native"
def DockerContainerHostName : String := "container"
def GitHubActionsHostName : String := "all_github_actions"
def AtlasActionHostName : String := "atlascli_github_action"
def ContainerizedHostNameEnv : String := "MONGODB_ATLAS_IS_CONTAINERIZED"
def GitHubActionsHostNameEnv : String := "GITHUB_ACTIONS"
def AtlasActionHostNameEnv : String := "ATLAS_GITHUB_ACTION"

/-- Go `envIsTrue`: `IsTrue(os.Getenv(env))`; the process environment is
passed as a function from variable name to value (`os.Getenv` yields `""`
for an unset variable). -/
def envIsTrue (env : String → String) (name : String) : Bool :=
  IsTrue (env name)

/-- Go `appendToHostName`: append to the builder, separated by `"|"` when
the builder is non-empty. -/
def appendToHostName (builder configVal : String) : String :=
  (if builder.length > 0 then builder ++ "|" else builder) ++ configVal

/-- Go `isDefaultHostName`: the count of `"-"` equals the count of `"|"`
plus one (`strings.Count` with a single-character needle is the character
count). -/
def isDefaultHostName (hostname : String) : Bool :=
  hostname.data.count '-' == hostname.data.count '|' + 1

/-- Go `getConfigHostnameFromEnvs`: fold the three env flags in source
order, each contributing its label or the placeholder `"-"`, and collapse
the all-placeholder result to `"native"`. -/
def getConfigHostnameFromEnvs (env : String → String) : String :=
  let envVars : List (String × String) :=
    [(AtlasActionHostNameEnv, AtlasActionHostName),
     (GitHubActionsHostNameEnv, GitHubActionsHostName),
     (ContainerizedHostNameEnv, DockerContainerHostName)]
  let configHostName := envVars.foldl
    (fun builder envVar =>
      if envIsTrue env envVar.1 then appendToHostName builder envVar.2
      else appendToHostName builder "-") ""
  if isDefaultHostName configHostName then NativeHostName else configHostName

/-- Go `Profile.Map`: the settings of the calling profile (as a
string-to-string map) with the values of `private_api_key`, `access_token`
and `refresh_token` replaced by the literal `"redacted"`; every other
binding is returned unchanged. -/
def ProfileMap (settings : List (String × String)) : List (String × String) :=
  settings.map (fun kv =>
    if kv.1 = privateAPIKey ∨ kv.1 = AccessTokenField ∨ kv.1 = RefreshTokenField
    then (kv.1, "redacted") else kv)

theorem isTrue_eq (s : String) :
    IsTrue s
      = decide (lowerString s ∈ (["t", "true", "y", "yes", "1"] : List String)) := by
  simp [IsTrue]

theorem lookupKey_setKey_self {α : Type} (l : List (String × α)) (k : String)
    (v : α) : lookupKey (setKey l k v) k = some v := by
  induction l with
  | nil => simp [setKey, lookupKey]
  | cons p rest ih =>
    obtain ⟨k1, v1⟩ := p
    by_cases h1 : k1 = k
    · subst h1; simp [setKey, lookupKey]
    · simp [setKey, lookupKey, h1, ih]

theorem lookupKey_setKey_ne {α : Type} (l : List (String × α)) (k k' : String)
    (v : α) (h : k' ≠ k) : lookupKey (setKey l k v) k' = lookupKey l k' := by
  induction l with
  | nil => simp [setKey, lookupKey, Ne.symm h]
  | cons p rest ih =>
    obtain ⟨k1, v1⟩ := p
    by_cases h1 : k1 = k
    · subst h1
      simp [setKey, lookupKey, Ne.symm h]
    · by_cases h2 : k1 = k'
      · simp [setKey, lookupKey, h1, h2, h]
      · simp [setKey, lookupKey, h1, h2, ih]

theorem deleteKey_isSome {α : Type} (l : List (String × α)) (k : String)
    (h : (lookupKey l k).isSome = true) : (deleteKey l k).isSome = true := by
  induction l with
  | nil => simp [lookupKey] at h
  | cons p rest ih =>
    obtain ⟨k1, v1⟩ := p
    by_cases h1 : k1 = k
    · simp [deleteKey, h1]
    · simp [lookupKey, h1] at h
      obtain ⟨d, hd⟩ := Option.isSome_iff_exists.mp (ih h)
      simp [deleteKey, h1, hd]

theorem lookupKey_deleteKey_ne {α : Type} (l d : List (String × α))
    (k : String) (hdel : deleteKey l k = some d) (k' : String) (hne : k' ≠ k) :
    lookupKey d k' = lookupKey l k' := by
  induction l generalizing d with
  | nil => simp [deleteKey] at hdel
  | cons p rest ih =>
    obtain ⟨k1, v1⟩ := p
    by_cases h1 : k1 = k
    · subst h1
      simp [deleteKey] at hdel
      subst hdel
      simp [lookupKey, Ne.symm hne]
    · simp [deleteKey, h1] at hdel
      cases hdk : deleteKey rest k with
      | none => rw [hdk] at hdel; simp at hdel
      | some d' =>
        rw [hdk] at hdel
        simp at hdel
        subst hdel
        by_cases h2 : k1 = k'
        · simp [lookupKey, h2]
        · simp [lookupKey, h2, ih d' hdk]

theorem deleteKey_key_not_mem {α : Type} (l d : List (String × α))
    (k : String) (hnodup : (l.map Prod.fst).Nodup)
    (hdel : deleteKey l k = some d) : k ∉ d.map Prod.fst := by
  induction l generalizing d with
  | nil => simp [deleteKey] at hdel
  | cons p rest ih =>
    obtain ⟨k1, v1⟩ := p
    simp only [List.map_cons, List.nodup_cons] at hnodup
    by_cases h1 : k1 = k
    · subst h1
      simp [deleteKey] at hdel
      subst hdel
      exact hnodup.1
    · simp [deleteKey, h1] at hdel
      cases hdk : deleteKey rest k with
      | none => rw [hdk] at hdel; simp at hdel
      | some d' =>
        rw [hdk] at hdel
        simp at hdel
        subst hdel
        simp only [List.map_cons, List.mem_cons]
        intro hmem
        rcases hmem with hmem | hmem
        · exact h1 hmem.symm
        · exact ih d' hnodup.2 hdk hmem

theorem mem_keys_setKey {α : Type} (l : List (String × α)) (k : String)
    (v : α) (k' : String) (h : k' ∈ (setKey l k v).map Prod.fst) :
    k' ∈ l.map Prod.fst ∨ k' = k := by
  induction l with
  | nil =>
    simp only [setKey, List.map_cons, List.map_nil, List.mem_singleton] at h
    exact Or.inr h
  | cons p rest ih =>
    obtain ⟨k1, v1⟩ := p
    by_cases h1 : k1 = k
    · simp only [setKey, if_pos h1, List.map_cons, List.mem_cons] at h
      rcases h with h | h
      · exact Or.inr h
      · exact Or.inl (by simp only [List.map_cons, List.mem_cons]; exact Or.inr h)
    · simp only [setKey, if_neg h1, List.map_cons, List.mem_cons] at h
      rcases h with h | h
      · exact Or.inl (by simp only [List.map_cons, List.mem_cons]; exact Or.inl h)
      · rcases ih h with h2 | h2
        · exact Or.inl (by simp only [List.map_cons, List.mem_cons]; exact Or.inr h2)
        · exact Or.inr h2

theorem setKey_keys_nodup {α : Type} (l : List (String × α)) (k : String)
    (v : α) (h : (l.map Prod.fst).Nodup) :
    ((setKey l k v).map Prod.fst).Nodup := by
  induction l with
  | nil => simp [setKey]
  | cons p rest ih =>
    obtain ⟨k1, v1⟩ := p
    simp only [List.map_cons, List.nodup_cons] at h
    by_cases h1 : k1 = k
    · simp only [setKey, if_pos h1, List.map_cons, List.nodup_cons]
      subst h1
      exact h
    · simp only [setKey, if_neg h1, List.map_cons, List.nodup_cons]
      refine ⟨?_, ih h.2⟩
      intro hmem
      rcases mem_keys_setKey rest k v k1 hmem with h2 | h2
      · exact h.1 h2
      · exact h1 h2

/-- C1 is false as stated: with the key resolving to the string `"no"` (not
boolean-like) and caller-supplied default `true`, `GetBoolWithDefault`
returns `IsTrue "no" = false`, not the default `true`. -/
theorem c1_counterexample :
    ProfileGet [("default", Value.table [("k", Value.str "no")])] "default" "k"
      = some (Value.str "no") ∧
    GetBoolWithDefault [("default", Value.table [("k", Value.str "no")])]
      "default" "k" true ≠ true := by
  exact ⟨rfl, by decide⟩

/-- C1 (amended): `GetBool` is `GetBoolWithDefault` with default `false`;
`GetBoolWithDefault` returns the native value on a boolean, the truthiness
test (membership of the lowercased string in `t/true/y/yes/1`, hence `false`
on any other string) on a string, and the caller-supplied default only when
the resolved value is absent or neither a boolean nor a string. -/
theorem c1_theorem (doc : Doc) (profileName key : String) (defaultValue : Bool) :
    GetBool doc profileName key = GetBoolWithDefault doc profileName key false ∧
    GetBoolWithDefault doc profileName key defaultValue =
      match ProfileGet doc profileName key with
      | some (Value.boolV b) => b
      | some (Value.str s) =>
          decide (lowerString s ∈ (["t", "true", "y", "yes", "1"] : List String))
      | _ => defaultValue := by
  refine ⟨rfl, ?_⟩
  unfold GetBoolWithDefault
  cases h : ProfileGet doc profileName key with
  | none => rfl
  | some v =>
    cases v with
    | str s => exact isTrue_eq s
    | boolV b => rfl
    | table t => rfl
    | nilV => rfl

/-- C2: `Profile.Get` returns the global (top-level) value whenever the key
is set globally with a value other than the empty string; otherwise it
returns the value from the nested table of the profile (absent keys give
`none`); in particular with a profile table holding `k = "a"` and a global
`k = "b"`, the result is `"b"`. -/
theorem c2_theorem (doc : Doc) (profileName key : String) :
    (∀ v, lookupKey doc key = some v → v ≠ Value.str "" →
        ProfileGet doc profileName key = some v) ∧
    (lookupKey doc key = none ∨ lookupKey doc key = some (Value.str "") →
        ProfileGet doc profileName key =
          lookupKey (getStringMap doc profileName) key) ∧
    ProfileGet [("p", Value.table [("k", Value.str "a")]), ("k", Value.str "b")]
      "p" "k" = some (Value.str "b") := by
  refine ⟨?_, ?_, rfl⟩
  · intro v hv hne
    unfold ProfileGet
    rw [hv]
    cases v with
    | str s =>
      cases s with
      | mk l =>
        cases l with
        | nil => exact absurd rfl hne
        | cons c cs => rfl
    | boolV b => rfl
    | table t => rfl
    | nilV => rfl
  · intro h
    unfold ProfileGet
    rcases h with h | h
    · rw [h]
    · rw [h]
      rfl

theorem c2_witness :
    ProfileGet [("p", Value.table [("k", Value.str "a")]), ("k", Value.str "b")]
      "p" "k" = some (Value.str "b") := by
  refine (c2_theorem [("p", Value.table [("k", Value.str "a")]), ("k", Value.str "b")]
    "p" "k").1 (Value.str "b") rfl ?_
  intro h
  exact absurd (congrArg (fun v => match v with | Value.str s => s | _ => "") h)
    (by decide)

/-- C3 is false as stated: `Rename` writes the new section under the name
exactly as given — renaming the profile `p1` to `P2` stores the section
under `P2`, and no section exists under the lowercased `p2`. -/
theorem c3_counterexample :
    ProfileRename [("p1", Value.table [("k", Value.str "v")])] "p1" "P2"
      = Except.ok [("P2", Value.table [("k", Value.str "v")])] ∧
    lookupKey [("P2", Value.table [("k", Value.str "v")])] "p2" = none :=
  ⟨rfl, rfl⟩

/-- C3 (amended): a name containing `"."` makes `SetName` and `Rename` fail
with the dotted-name error.  For a name without `"."`, `SetName` succeeds
and the stored name is the lowercased form, while `Rename` (when the old
profile exists in the document and differs from the new name) succeeds and
writes the moved section under the new name exactly as given — `Rename`
does not lowercase. -/
theorem c3_theorem (name : String) (doc : Doc) (oldName : String) :
    (name.data.contains '.' = true →
      SetName name = Except.error (ConfigError.profileNameHasDots name) ∧
      ProfileRename doc oldName name =
        Except.error (ConfigError.profileNameHasDots name)) ∧
    (name.data.contains '.' = false →
      SetName name = Except.ok (lowerString name) ∧
      ((lookupKey doc oldName).isSome = true → oldName ≠ name →
        ∃ doc2, ProfileRename doc oldName name = Except.ok doc2 ∧
          lookupKey doc2 name = some (tomlGet doc oldName))) := by
  constructor
  · intro h
    constructor
    · unfold SetName validateName
      rw [h]
      rfl
    · unfold ProfileRename validateName
      rw [h]
      rfl
  · intro h
    constructor
    · unfold SetName validateName
      rw [h]
      rfl
    · intro hsome hne
      have hrn : lookupKey (setKey doc name (tomlGet doc oldName)) oldName
          = lookupKey doc oldName :=
        lookupKey_setKey_ne doc name oldName (tomlGet doc oldName) hne
      have hds : (deleteKey (setKey doc name (tomlGet doc oldName)) oldName).isSome
          = true := by
        apply deleteKey_isSome
        rw [hrn]
        exact hsome
      obtain ⟨t2, ht2⟩ := Option.isSome_iff_exists.mp hds
      refine ⟨t2, ?_, ?_⟩
      · unfold ProfileRename validateName
        rw [h]
        simp only [Bool.false_eq_true, if_false]
        rw [ht2]
      · rw [lookupKey_deleteKey_ne _ _ _ ht2 name (Ne.symm hne)]
        exact lookupKey_setKey_self doc name (tomlGet doc oldName)

theorem c3_witness :
    ("a.b".data.contains '.' = true ∧
      SetName "a.b" = Except.error (ConfigError.profileNameHasDots "a.b")) ∧
    ("Ab".data.contains '.' = false ∧
      SetName "Ab" = Except.ok (lowerString "Ab") ∧
      ∃ doc2,
        ProfileRename [("p1", Value.table [("k", Value.str "v")])] "p1" "Ab"
          = Except.ok doc2 ∧
        lookupKey doc2 "Ab"
          = some (tomlGet [("p1", Value.table [("k", Value.str "v")])] "p1")) := by
  refine ⟨⟨by decide, ?_⟩, ⟨by decide, ?_, ?_⟩⟩
  · exact (( c3_theorem "a.b" [] "p1").1 (by decide)).1
  · exact (( c3_theorem "Ab" [] "p1").2 (by decide)).1
  · exact (( c3_theorem "Ab" [("p1", Value.table [("k", Value.str "v")])] "p1").2
      (by decide)).2 (by decide) (by decide)

/-- C4: `AuthType` returns API-key mode when both API keys are non-empty
(regardless of the access token, so API keys win over OAuth), else OAuth
mode when the access token is non-empty, else not-logged-in. -/
theorem c4_theorem (p : ProfileState) :
    (p.publicAPIKeyV ≠ "" → p.privateAPIKeyV ≠ "" →
      AuthType p = AuthMechanism.APIKeys) ∧
    ((p.publicAPIKeyV = "" ∨ p.privateAPIKeyV = "") → p.accessTokenV ≠ "" →
      AuthType p = AuthMechanism.OAuth) ∧
    ((p.publicAPIKeyV = "" ∨ p.privateAPIKeyV = "") → p.accessTokenV = "" →
      AuthType p = AuthMechanism.NotLoggedIn) := by
  refine ⟨?_, ?_, ?_⟩
  · intro h1 h2
    simp [AuthType, h1, h2]
  · intro h1 h2
    rcases h1 with h | h <;> simp [AuthType, h, h2]
  · intro h1 h2
    rcases h1 with h | h <;> simp [AuthType, h, h2]

theorem c4_witness :
    AuthType ⟨"pub", "priv", "tok", "ref"⟩ = AuthMechanism.APIKeys :=
  ( c4_theorem ⟨"pub", "priv", "tok", "ref"⟩).1 (by decide) (by decide)

/-- C5: `Token` returns a nil token and no error when the access token or
the refresh token is empty (in particular when the access token is set but
the refresh token is empty); otherwise it propagates any claim-parse error,
and on success returns a token of type `"Bearer"` carrying both tokens and
the expiry of the claims. -/
theorem c5_theorem (tokenClaims : String → Except String RegisteredClaims)
    (p : ProfileState) :
    (p.accessTokenV = "" ∨ p.refreshTokenV = "" →
      ProfileToken tokenClaims p = Except.ok none) ∧
    (p.accessTokenV ≠ "" → p.refreshTokenV ≠ "" →
      (∀ e, tokenClaims p.accessTokenV = Except.error e →
        ProfileToken tokenClaims p = Except.error e) ∧
      (∀ c, tokenClaims p.accessTokenV = Except.ok c →
        ProfileToken tokenClaims p = Except.ok (some
          { accessToken := p.accessTokenV
            refreshToken := p.refreshTokenV
            tokenType := "Bearer"
            expiry := match c.expiresAt with
              | some t => t
              | none => 0 }))) := by
  constructor
  · intro h
    unfold ProfileToken
    rw [if_pos h]
  · intro h1 h2
    constructor
    · intro e he
      unfold ProfileToken
      rw [if_neg (by rintro (h | h); exacts [h1 h, h2 h]), he]
    · intro c hc
      unfold ProfileToken
      rw [if_neg (by rintro (h | h); exacts [h1 h, h2 h]), hc]

theorem c5_witness :
    ProfileToken (fun _ => Except.ok ⟨"sub", some 5⟩) ⟨"", "", "atk", ""⟩
        = Except.ok none ∧
    ProfileToken (fun _ => Except.ok ⟨"sub", some 5⟩) ⟨"", "", "atk", "rtk"⟩
        = Except.ok (some ⟨"atk", "rtk", "Bearer", 5⟩) :=
  ⟨(c5_theorem (fun _ => Except.ok ⟨"sub", some 5⟩) ⟨"", "", "atk", ""⟩).1
      (Or.inr rfl),
   ((c5_theorem (fun _ => Except.ok ⟨"sub", some 5⟩) ⟨"", "", "atk", "rtk"⟩).2
      (by decide) (by decide)).2 ⟨"sub", some 5⟩ rfl⟩

/-- C6: `HttpTransport` wraps the base in a digest decorator when both API
keys are non-empty, else in a bearer decorator when the access token is
non-empty, else returns the base unchanged; the bearer `RoundTrip`
delegates to the base after setting the header `Authorization` to
`Bearer <token>`, leaving all other headers unchanged. -/
theorem c6_theorem (p : ProfileState) (httpTransport : RoundTripper)
    (ρ : Type) (base : Request → ρ) (token : String) (req : Request) :
    (p.publicAPIKeyV ≠ "" → p.privateAPIKeyV ≠ "" →
      HttpTransport p httpTransport
        = RoundTripper.digest p.publicAPIKeyV p.privateAPIKeyV httpTransport) ∧
    ((p.publicAPIKeyV = "" ∨ p.privateAPIKeyV = "") → p.accessTokenV ≠ "" →
      HttpTransport p httpTransport
        = RoundTripper.bearer p.accessTokenV httpTransport) ∧
    ((p.publicAPIKeyV = "" ∨ p.privateAPIKeyV = "") → p.accessTokenV = "" →
      HttpTransport p httpTransport = httpTransport) ∧
    TransportRoundTrip base token req
      = base (headerSet req "Authorization" ("Bearer " ++ token)) ∧
    lookupKey (headerSet req "Authorization" ("Bearer " ++ token)).headers
      "Authorization" = some ("Bearer " ++ token) ∧
    (∀ k, k ≠ "Authorization" →
      lookupKey (headerSet req "Authorization" ("Bearer " ++ token)).headers k
        = lookupKey req.headers k) := by
  refine ⟨?_, ?_, ?_, rfl, ?_, ?_⟩
  · intro h1 h2
    simp [HttpTransport, h1, h2]
  · intro h1 h2
    rcases h1 with h | h <;> simp [HttpTransport, h, h2]
  · intro h1 h2
    rcases h1 with h | h <;> simp [HttpTransport, h, h2]
  · exact lookupKey_setKey_self req.headers _ _
  · intro k hk
    exact lookupKey_setKey_ne req.headers _ k _ hk

theorem c6_witness :
    HttpTransport ⟨"", "", "tok", "ref"⟩ RoundTripper.base
      = RoundTripper.bearer "tok" RoundTripper.base :=
  (( c6_theorem ⟨"", "", "tok", "ref"⟩ RoundTripper.base Request id "tok"
      ⟨[]⟩).2.1) (Or.inl rfl) (by decide)

/-- C7: with none of the three environment flags truthy the resolved
hostname is `"native"`; with exactly the containerized flag truthy it is
`"-|-|container"` (container label in its slot, placeholders elsewhere),
which does not collapse to `"native"`. -/
theorem c7_theorem (env : String → String) :
    (envIsTrue env AtlasActionHostNameEnv = false →
     envIsTrue env GitHubActionsHostNameEnv = false →
     envIsTrue env ContainerizedHostNameEnv = false →
     getConfigHostnameFromEnvs env = "native") ∧
    (envIsTrue env AtlasActionHostNameEnv = false →
     envIsTrue env GitHubActionsHostNameEnv = false →
     envIsTrue env ContainerizedHostNameEnv = true →
     getConfigHostnameFromEnvs env = "-|-|container" ∧
     getConfigHostnameFromEnvs env ≠ NativeHostName) := by
  constructor
  · intro h1 h2 h3
    unfold getConfigHostnameFromEnvs
    simp only [List.foldl, h1, h2, h3, if_false, Bool.false_eq_true]
    rfl
  · intro h1 h2 h3
    unfold getConfigHostnameFromEnvs
    simp only [List.foldl, h1, h2, h3, if_false, if_true, Bool.false_eq_true]
    exact ⟨rfl, by decide⟩

theorem c7_witness :
    getConfigHostnameFromEnvs (fun _ => "") = "native" ∧
    getConfigHostnameFromEnvs
        (fun n => if n = "MONGODB_ATLAS_IS_CONTAINERIZED" then "true" else "")
      = "-|-|container" :=
  ⟨(c7_theorem (fun _ => "")).1 (by decide) (by decide) (by decide),
   ((c7_theorem
      (fun n => if n = "MONGODB_ATLAS_IS_CONTAINERIZED" then "true" else "")).2
      (by decide) (by decide) (by decide)).1⟩

/-- C8: `Delete` removes only the key of the calling profile from the
document it writes back — every other top-level binding (global keys and
the nested tables of other profiles) resolves to the same value before and
after. -/
theorem c8_theorem (doc : Doc) (profileName : String) (doc2 : Doc)
    (h : ProfileDelete doc profileName = some doc2) :
    ∀ k, k ≠ profileName → lookupKey doc2 k = lookupKey doc k := by
  intro k hk
  exact lookupKey_deleteKey_ne doc doc2 profileName h k hk

theorem c8_witness :
    lookupKey [("g", Value.str "x"), ("q", Value.table [])] "g"
      = lookupKey
          [("g", Value.str "x"), ("p", Value.table []), ("q", Value.table [])]
          "g" :=
  c8_theorem [("g", Value.str "x"), ("p", Value.table []), ("q", Value.table [])]
    "p" [("g", Value.str "x"), ("q", Value.table [])] rfl "g" (by decide)

/-- C9 is false as stated when the new name equals the old one: `Rename`
first sets the new key and then deletes the old key, so renaming the
profile `p1` to `p1` removes the profile and its settings entirely. -/
theorem c9_counterexample :
    ProfileRename [("p1", Value.table [("k", Value.str "v")])] "p1" "p1"
      = Except.ok ([] : Doc) ∧
    lookupKey ([] : Doc) "p1" = none :=
  ⟨rfl, rfl⟩

/-- C9 (amended): for a document with no duplicate top-level keys that
contains the profile `p1`, a successful `Rename` to a different name `p2`
stores exactly the settings formerly under `p1` at key `p2`, and `p1` is no
longer among the listed profiles of the rewritten document. -/
theorem c9_theorem (doc : Doc) (p1 p2 : String) (v : Value) (doc2 : Doc)
    (hnodup : (doc.map Prod.fst).Nodup)
    (hp1 : lookupKey doc p1 = some v)
    (hne : p1 ≠ p2)
    (h : ProfileRename doc p1 p2 = Except.ok doc2) :
    lookupKey doc2 p2 = some v ∧ p1 ∉ ListProfiles doc2 := by
  unfold ProfileRename at h
  cases hval : validateName p2 with
  | some e => rw [hval] at h; exact absurd h (by simp)
  | none =>
    rw [hval] at h
    simp only at h
    cases hdel : deleteKey (setKey doc p2 (tomlGet doc p1)) p1 with
    | none => rw [hdel] at h; exact absurd h (by simp)
    | some t2 =>
      rw [hdel] at h
      simp only [Except.ok.injEq] at h
      subst h
      constructor
      · rw [lookupKey_deleteKey_ne _ _ _ hdel p2 (Ne.symm hne)]
        rw [lookupKey_setKey_self]
        unfold tomlGet
        rw [hp1]
      · intro hmem
        unfold ListProfiles at hmem
        rw [List.mem_insertionSort] at hmem
        have hkeys : p1 ∈ t2.map Prod.fst := List.mem_of_mem_filter hmem
        exact deleteKey_key_not_mem _ _ p1
          (setKey_keys_nodup doc p2 (tomlGet doc p1) hnodup) hdel hkeys

theorem c9_witness :
    lookupKey [("p2", Value.table [("k", Value.str "v")])] "p2"
        = some (Value.table [("k", Value.str "v")]) ∧
    "p1" ∉ ListProfiles [("p2", Value.table [("k", Value.str "v")])] :=
  c9_theorem [("p1", Value.table [("k", Value.str "v")])] "p1" "p2"
    (Value.table [("k", Value.str "v")])
    [("p2", Value.table [("k", Value.str "v")])]
    (by simp) rfl (by decide) rfl

/-- C10: `Map` keeps exactly the keys of the settings of the profile, maps
the three secret keys to `"redacted"` and every other key to its own value;
and its output is identical on any two settings lists that agree everywhere
except possibly in the values of those three secret keys. -/
theorem c10_theorem (s1 s2 : List (String × String)) :
    (ProfileMap s1).map Prod.fst = s1.map Prod.fst ∧
    (∀ k v, (k, v) ∈ s1 →
      (k, if k = privateAPIKey ∨ k = AccessTokenField ∨ k = RefreshTokenField
          then "redacted" else v) ∈ ProfileMap s1) ∧
    (List.Forall₂ (fun a b : String × String =>
        a.1 = b.1 ∧
        (¬(a.1 = privateAPIKey ∨ a.1 = AccessTokenField ∨
            a.1 = RefreshTokenField) → a.2 = b.2)) s1 s2 →
      ProfileMap s1 = ProfileMap s2) := by
  refine ⟨?_, ?_, ?_⟩
  · induction s1 with
    | nil => rfl
    | cons p rest ih =>
      simp only [ProfileMap, List.map_cons] at ih ⊢
      rw [ih]
      by_cases h : p.1 = privateAPIKey ∨ p.1 = AccessTokenField ∨
          p.1 = RefreshTokenField
      · rw [if_pos h]
      · rw [if_neg h]
  · intro k v hmem
    have heq : (fun kv : String × String =>
        if kv.1 = privateAPIKey ∨ kv.1 = AccessTokenField ∨
            kv.1 = RefreshTokenField
        then (kv.1, "redacted") else kv) (k, v)
        = (k, if k = privateAPIKey ∨ k = AccessTokenField ∨
              k = RefreshTokenField then "redacted" else v) := by
      by_cases h : k = privateAPIKey ∨ k = AccessTokenField ∨
          k = RefreshTokenField
      · simp only [if_pos h]
      · simp only [if_neg h]
    exact heq ▸ List.mem_map_of_mem _ hmem
  · intro hf
    induction hf with
    | nil => rfl
    | @cons a b l1 l2 hab htail ih =>
      obtain ⟨a1, a2⟩ := a
      obtain ⟨b1, b2⟩ := b
      obtain ⟨h1, h2⟩ := hab
      dsimp only at h1 h2
      subst h1
      simp only [ProfileMap, List.map_cons] at ih ⊢
      rw [ih]
      by_cases hs : a1 = privateAPIKey ∨ a1 = AccessTokenField ∨
          a1 = RefreshTokenField
      · simp [hs]
      · simp [hs]
        exact h2 hs

theorem c10_witness :
    ProfileMap [("org_id", "o"), ("access_token", "secret1")]
      = ProfileMap [("org_id", "o"), ("access_token", "secret2")] :=
  (c10_theorem [("org_id", "o"), ("access_token", "secret1")]
      [("org_id", "o"), ("access_token", "secret2")]).2.2
    (List.Forall₂.cons ⟨rfl, fun _ => rfl⟩
      (List.Forall₂.cons
        ⟨rfl, fun hn => absurd (Or.inr (Or.inl rfl)) hn⟩
        List.Forall₂.nil))
